import Mathlib

/-!
# Verification of the `llvm-wrap` specification against its source

This development shallowly embeds the Rust crate `llvm-wrap` (a safe wrapper
around the LLVM C API from `llvm-sys`) in Lean and settles the frozen claims
about its specification.

The embedding has two layers, mirroring the crate's own structure:

* A functional model of the *backend* (the LLVM C API calls the crate makes:
  `LLVMBuildSRem`, `LLVMConstInt`, `LLVMGetNamedFunction`, ...).  Handles
  (`LLVMValueRef`, `LLVMBuilderRef`, ...) are natural numbers, `0` standing
  for the null handle; the global context is a `Ctx` record threaded through
  every call.  Type references are modelled structurally because the LLVM
  context interns types (repeated `LLVMInt32TypeInContext` calls return the
  same reference).  Insertion of the created instruction into the builder's
  current block is not tracked: no claim observes block contents, and the C
  API performs no position check of its own (emitting through an unpositioned
  builder is undefined behaviour, not an error).
* A transcription of the crate's wrapper layer (`Builder`, `Module`, `Value`,
  `Ty` for Rust's `Type`, `BasicBlock`, the iterators of `iter.rs`, the
  free type factories of `types.rs`, and the initialization guard of
  `target.rs`).  A Rust panic is modelled as `Except.error` carrying the
  panic message.
-/

namespace LlvmWrap

/-! ## Association lists (the backend's handle tables) -/

/-- Look up the first entry with key `k` in an association list. -/
def alookup {κ α : Type} [DecidableEq κ] (k : κ) : List (κ × α) → Option α
  | [] => none
  | (k2, v) :: rest => if k = k2 then some v else alookup k rest

/-- Update the first entry with key `k` (no-op when the key is absent). -/
def aupdate {κ α : Type} [DecidableEq κ] (k : κ) (f : α → α) :
    List (κ × α) → List (κ × α)
  | [] => []
  | (k2, v) :: rest =>
    if k = k2 then (k2, f v) :: rest else (k2, v) :: aupdate k f rest

theorem alookup_cons_self {κ α : Type} [DecidableEq κ] (k : κ) (v : α)
    (l : List (κ × α)) : alookup k ((k, v) :: l) = some v := by
  simp [alookup]

theorem aupdate_cons_self {κ α : Type} [DecidableEq κ] (k : κ) (f : α → α)
    (v : α) (l : List (κ × α)) :
    aupdate k f ((k, v) :: l) = (k, f v) :: l := by
  simp [aupdate]

theorem alookup_mem {κ α : Type} [DecidableEq κ] {k : κ} {v : α}
    {l : List (κ × α)} (h : alookup k l = some v) : (k, v) ∈ l := by
  induction l with
  | nil => simp [alookup] at h
  | cons p rest ih =>
    obtain ⟨k2, v2⟩ := p
    by_cases hk : k = k2
    · subst hk
      simp [alookup] at h
      simp [h]
    · simp [alookup, hk] at h
      exact List.mem_cons_of_mem _ (ih h)

theorem alookup_aupdate_self {κ α : Type} [DecidableEq κ] (k : κ) (f : α → α)
    (l : List (κ × α)) :
    alookup k (aupdate k f l) = (alookup k l).map f := by
  induction l with
  | nil => simp [alookup, aupdate]
  | cons p rest ih =>
    obtain ⟨k2, v2⟩ := p
    by_cases hk : k = k2
    · subst hk
      simp [alookup, aupdate]
    · simp [alookup, aupdate, hk, ih]

/-! ## Backend model: types, instructions and the context state -/

/-- An `LLVMTypeRef`.  LLVM interns types per context, so a structural
description is a faithful handle: two factory calls for the same type give
equal references.  Named struct types have identity through their name; their
(mutable) bodies live in the context state. -/
inductive LLVMTypeRef : Type
  | void
  | half
  | float
  | double
  | fp128
  | int (bits : Nat)
  | ptr (elem : LLVMTypeRef)
  | named (name : String)
  deriving Repr, DecidableEq

/-- The instructions the wrapper's emission methods can create, keyed by the
C API entry point that creates them (operands are value handles). -/
inductive Instr : Type
  | alloca (ty : LLVMTypeRef)
  | add (a b : Nat)
  | srem (a b : Nat)
  | urem (a b : Nat)
  | gep (ptr : Nat) (indices : List Nat) (inbounds : Bool)
  | phi (ty : LLVMTypeRef) (incoming : List (Nat × Nat))
  | retVoid
  deriving Repr, DecidableEq

/-- What a value handle refers to. -/
inductive ValueDescr : Type
  | constInt (ty : LLVMTypeRef) (val : Nat)
  | function (name : String)
  | global (name : String)
  | instr (i : Instr)
  deriving Repr, DecidableEq

/-- The backend's record for one value handle: its type (what `LLVMTypeOf`
returns) and its description. -/
structure ValueInfo : Type where
  tyh : LLVMTypeRef
  descr : ValueDescr
  deriving Repr, DecidableEq

/-- The backend's record for one module: its functions and globals, as
(handle, name) pairs in declaration order (LLVM keeps them in intrusive
lists in insertion order). -/
structure ModuleObj : Type where
  funcs : List (Nat × String) := []
  globals : List (Nat × String) := []
  deriving Repr, DecidableEq

/-- The state of the (global) LLVM context.  All handles are drawn from the
single counter `nextHandle`, which starts at `1`; `0` is the null handle. -/
structure Ctx : Type where
  nextHandle : Nat := 1
  values : List (Nat × ValueInfo) := []
  builders : List (Nat × Option Nat) := []
  modules : List (Nat × ModuleObj) := []
  namedStructs : List (String × Option (List LLVMTypeRef × Bool)) := []
  deriving Repr

/-- Allocate a fresh value handle holding `info`. -/
def allocValue (st : Ctx) (info : ValueInfo) : Nat × Ctx :=
  (st.nextHandle,
    { st with
        nextHandle := st.nextHandle + 1
        values := (st.nextHandle, info) :: st.values })

/-- `LLVMTypeOf`.  A handle outside the table is undefined behaviour in the
real API; the model returns `void` there. -/
def LLVMTypeOf (st : Ctx) (v : Nat) : LLVMTypeRef :=
  match alookup v st.values with
  | some info => info.tyh
  | none => LLVMTypeRef.void

/-- `LLVMConstInt` (constant interning is not modelled; a fresh handle with
the right type is a conservative model). -/
def LLVMConstInt (st : Ctx) (ty : LLVMTypeRef) (val : Nat) : Nat × Ctx :=
  allocValue st ⟨ty, ValueDescr.constInt ty val⟩

/-- `LLVMBuildAlloca`: result type is a pointer to the allocated type. -/
def LLVMBuildAlloca (st : Ctx) (_b : Nat) (ty : LLVMTypeRef) : Nat × Ctx :=
  allocValue st ⟨LLVMTypeRef.ptr ty, ValueDescr.instr (Instr.alloca ty)⟩

/-- `LLVMBuildAdd`: result type is the type of the first operand. -/
def LLVMBuildAdd (st : Ctx) (_b : Nat) (a c : Nat) : Nat × Ctx :=
  allocValue st ⟨LLVMTypeOf st a, ValueDescr.instr (Instr.add a c)⟩

/-- `LLVMBuildSRem`: creates a signed-remainder instruction. -/
def LLVMBuildSRem (st : Ctx) (_b : Nat) (a c : Nat) : Nat × Ctx :=
  allocValue st ⟨LLVMTypeOf st a, ValueDescr.instr (Instr.srem a c)⟩

/-- `LLVMBuildURem`: creates an unsigned-remainder instruction.  (The crate
never calls this entry point; it is part of the C API model so that the
signed/unsigned distinction is expressible.) -/
def LLVMBuildURem (st : Ctx) (_b : Nat) (a c : Nat) : Nat × Ctx :=
  allocValue st ⟨LLVMTypeOf st a, ValueDescr.instr (Instr.urem a c)⟩

/-- `LLVMBuildGEP`: a plain get-element-pointer, no inbounds marking. -/
def LLVMBuildGEP (st : Ctx) (_b : Nat) (ptr : Nat) (indices : List Nat) :
    Nat × Ctx :=
  allocValue st ⟨LLVMTypeOf st ptr, ValueDescr.instr (Instr.gep ptr indices false)⟩

/-- `LLVMBuildInBoundsGEP`: the C API variant that does set the inbounds
marking.  (The crate never calls this entry point.) -/
def LLVMBuildInBoundsGEP (st : Ctx) (_b : Nat) (ptr : Nat)
    (indices : List Nat) : Nat × Ctx :=
  allocValue st ⟨LLVMTypeOf st ptr, ValueDescr.instr (Instr.gep ptr indices true)⟩

/-- `LLVMBuildPhi`: creates a phi node of the given type with an empty
incoming list. -/
def LLVMBuildPhi (st : Ctx) (_b : Nat) (ty : LLVMTypeRef) : Nat × Ctx :=
  allocValue st ⟨ty, ValueDescr.instr (Instr.phi ty [])⟩

/-- `LLVMBuildRetVoid`. -/
def LLVMBuildRetVoid (st : Ctx) (_b : Nat) : Nat × Ctx :=
  allocValue st ⟨LLVMTypeRef.void, ValueDescr.instr Instr.retVoid⟩

/-- `LLVMAddIncoming`: appends the zipped (value, block) pairs to a phi
node's incoming list. -/
def LLVMAddIncoming (st : Ctx) (phi : Nat) (vals blocks : List Nat) : Ctx :=
  { st with
      values := aupdate phi (fun info =>
        match info.descr with
        | ValueDescr.instr (Instr.phi ty inc) =>
          { info with descr := ValueDescr.instr (Instr.phi ty (inc ++ vals.zip blocks)) }
        | _ => info) st.values }

/-- `LLVMPositionBuilderAtEnd`: sets the builder object's insertion point. -/
def LLVMPositionBuilderAtEnd (st : Ctx) (b : Nat) (bb : Nat) : Ctx :=
  { st with builders := aupdate b (fun _ => some bb) st.builders }

/-! ## Wrapper layer: handle structs (`val.rs`, `ty.rs`, `bb.rs`,
`builder.rs`, `module.rs`) -/

/-- `pub struct Value { value: LLVMValueRef }`. -/
structure Value : Type where
  value : Nat
  deriving Repr, DecidableEq

/-- `pub struct Type { ty: LLVMTypeRef }` (named `Ty` because `Type` is a
Lean keyword). -/
structure Ty : Type where
  ty : LLVMTypeRef
  deriving Repr, DecidableEq

/-- `pub struct BasicBlock { basic_block: LLVMBasicBlockRef }`. -/
structure BasicBlock : Type where
  basic_block : Nat
  deriving Repr, DecidableEq

/-- `pub struct Builder { builder: Option<LLVMBuilderRef> }`. -/
structure Builder : Type where
  builder : Option Nat
  deriving Repr, DecidableEq

/-- `pub struct Module { module: Option<LLVMModuleRef> }`. -/
structure Module : Type where
  module : Option Nat
  deriving Repr, DecidableEq

/-- `Option::unwrap`: a Rust panic is an `Except.error` with the panic
message. -/
def optUnwrap {α : Type} : Option α → Except String α
  | some a => Except.ok a
  | none => Except.error "called Option::unwrap on a None value"

/-- `Value::ty` (`val.rs`): `LLVMTypeOf(self.value)`. -/
def Value.ty (self : Value) (st : Ctx) : Ty :=
  ⟨LLVMTypeOf st self.value⟩

/-- `Type::const_int` (`ty.rs`): `LLVMConstInt(self.ty, val, 0)`. -/
def Ty.const_int (self : Ty) (st : Ctx) (val : Nat) : Value × Ctx :=
  let r := LLVMConstInt st self.ty val
  (⟨r.1⟩, r.2)

/-! ## Builder emission methods (`builder.rs`)

Each method unwraps the wrapper's `Option<LLVMBuilderRef>` (panicking when
the wrapper was consumed by `into_inner`) and forwards to one backend entry
point.  No method inspects the builder object's insertion position. -/

/-- `Builder::build_alloca`. -/
def Builder.build_alloca (self : Builder) (st : Ctx) (ty : Ty) :
    Except String (Value × Ctx) := do
  let b ← optUnwrap self.builder
  let r := LLVMBuildAlloca st b ty.ty
  pure (⟨r.1⟩, r.2)

/-- `Builder::build_int_add`. -/
def Builder.build_int_add (self : Builder) (st : Ctx) (a c : Value) :
    Except String (Value × Ctx) := do
  let b ← optUnwrap self.builder
  let r := LLVMBuildAdd st b a.value c.value
  pure (⟨r.1⟩, r.2)

/-- `Builder::build_int_urem`.  The source's body calls `LLVMBuildSRem`
(builder.rs line 423), although its doc comment promises a `urem`
instruction. -/
def Builder.build_int_urem (self : Builder) (st : Ctx) (a c : Value) :
    Except String (Value × Ctx) := do
  let b ← optUnwrap self.builder
  let r := LLVMBuildSRem st b a.value c.value
  pure (⟨r.1⟩, r.2)

/-- `Builder::build_int_srem`: calls `LLVMBuildSRem`. -/
def Builder.build_int_srem (self : Builder) (st : Ctx) (a c : Value) :
    Except String (Value × Ctx) := do
  let b ← optUnwrap self.builder
  let r := LLVMBuildSRem st b a.value c.value
  pure (⟨r.1⟩, r.2)

/-- `Builder::build_gep`: calls `LLVMBuildGEP`. -/
def Builder.build_gep (self : Builder) (st : Ctx) (ptr : Value)
    (indices : List Value) : Except String (Value × Ctx) := do
  let b ← optUnwrap self.builder
  let r := LLVMBuildGEP st b ptr.value (indices.map Value.value)
  pure (⟨r.1⟩, r.2)

/-- `Builder::build_inbounds_gep`.  The source's body calls `LLVMBuildGEP`
(builder.rs line 117), identical to `build_gep` — not
`LLVMBuildInBoundsGEP`. -/
def Builder.build_inbounds_gep (self : Builder) (st : Ctx) (ptr : Value)
    (indices : List Value) : Except String (Value × Ctx) := do
  let b ← optUnwrap self.builder
  let r := LLVMBuildGEP st b ptr.value (indices.map Value.value)
  pure (⟨r.1⟩, r.2)

/-- `Builder::build_ret_void`. -/
def Builder.build_ret_void (self : Builder) (st : Ctx) :
    Except String (Value × Ctx) := do
  let b ← optUnwrap self.builder
  let r := LLVMBuildRetVoid st b
  pure (⟨r.1⟩, r.2)

/-- `Builder::build_phi` (builder.rs lines 300-323): panics on an empty
incoming list; otherwise creates a phi typed after the first incoming value
(`incoming[0].0.ty().ty`), collects the values and blocks in input order and
hands them to `LLVMAddIncoming`. -/
def Builder.build_phi (self : Builder) (st : Ctx)
    (incoming : List (Value × BasicBlock)) : Except String (Value × Ctx) :=
  match incoming with
  | [] => Except.error "phi node must have an incoming block list"
  | (v0, _) :: _ => do
    let b ← optUnwrap self.builder
    let r := LLVMBuildPhi st b (LLVMTypeOf st v0.value)
    let values := incoming.map (fun p => p.1.value)
    let blocks := incoming.map (fun p => p.2.basic_block)
    let st2 := LLVMAddIncoming r.2 r.1 values blocks
    pure (⟨r.1⟩, st2)

/-- `Builder::position_at_end`. -/
def Builder.position_at_end (self : Builder) (st : Ctx) (bb : BasicBlock) :
    Except String Ctx := do
  let b ← optUnwrap self.builder
  pure (LLVMPositionBuilderAtEnd st b bb.basic_block)

/-! ## Module operations (`module.rs`) and the backend calls they make -/

/-- `LLVMAddFunction`: allocates a function value and appends it to the
module's function list.  (LLVM's handling of a name collision — taking or
uniquifying the name — is irrelevant to the claims and not modelled.) -/
def LLVMAddFunction (st : Ctx) (m : Nat) (name : String) (ty : LLVMTypeRef) :
    Nat × Ctx :=
  let r := allocValue st ⟨ty, ValueDescr.function name⟩
  (r.1,
    { r.2 with
        modules := aupdate m (fun mo =>
          { mo with funcs := mo.funcs ++ [(r.1, name)] }) r.2.modules })

/-- First handle of a (handle, name) declaration list, or the null handle. -/
def firstHandle : List (Nat × String) → Nat
  | [] => 0
  | p :: _ => p.1

/-- First handle declared under `name`, or the null handle. -/
def findByName : List (Nat × String) → String → Nat
  | [], _ => 0
  | (h, n) :: rest, name => if n = name then h else findByName rest name

/-- `LLVMGetNamedFunction`: the first function with the given name, or the
null handle when no function of that name is declared. -/
def LLVMGetNamedFunction (st : Ctx) (m : Nat) (name : String) : Nat :=
  match alookup m st.modules with
  | none => 0
  | some mo => findByName mo.funcs name

/-- `LLVMGetNamedGlobal`: the first global with the given name, or the null
handle. -/
def LLVMGetNamedGlobal (st : Ctx) (m : Nat) (name : String) : Nat :=
  match alookup m st.modules with
  | none => 0
  | some mo => findByName mo.globals name

/-- `LLVMGetFirstFunction`: head of the module's intrusive function list,
or the null handle for an empty module. -/
def LLVMGetFirstFunction (st : Ctx) (m : Nat) : Nat :=
  match alookup m st.modules with
  | none => 0
  | some mo => firstHandle mo.funcs

/-- Successor of the first occurrence of `h` in a handle list: `some 0`
when `h` is last (the null sentinel), `none` when `h` does not occur. -/
def nextAfter (h : Nat) : List Nat → Option Nat
  | [] => none
  | a :: rest =>
    if a = h then
      some (match rest with | [] => 0 | b :: _ => b)
    else nextAfter h rest

/-- Scan the module table for the module containing function `h` and return
its successor there. -/
def findNextFunc (h : Nat) : List (Nat × ModuleObj) → Nat
  | [] => 0
  | e :: rest =>
    match nextAfter h (e.2.funcs.map Prod.fst) with
    | some nxt => nxt
    | none => findNextFunc h rest

/-- `LLVMGetNextFunction`: successor in the owning module's intrusive
function list, or the null handle at the end of the list. -/
def LLVMGetNextFunction (st : Ctx) (h : Nat) : Nat :=
  findNextFunc h st.modules

/-- `Module::add_function`. -/
def Module.add_function (self : Module) (st : Ctx) (name : String) (ty : Ty) :
    Except String (Value × Ctx) := do
  let m ← optUnwrap self.module
  let r := LLVMAddFunction st m name ty.ty
  pure (⟨r.1⟩, r.2)

/-- `Module::get_function` (module.rs lines 34-40): wraps whatever handle
`LLVMGetNamedFunction` returns — the null handle when the name is not
declared. -/
def Module.get_function (self : Module) (st : Ctx) (name : String) :
    Except String Value := do
  let m ← optUnwrap self.module
  pure ⟨LLVMGetNamedFunction st m name⟩

/-- `Module::get_global` (module.rs lines 43-49). -/
def Module.get_global (self : Module) (st : Ctx) (name : String) :
    Except String Value := do
  let m ← optUnwrap self.module
  pure ⟨LLVMGetNamedGlobal st m name⟩

/-! ## Iterators (`iter.rs`) -/

/-- `pub struct Functions { pointer: Value }`. -/
structure Functions : Type where
  pointer : Value
  deriving Repr, DecidableEq

/-- `<Functions as Iterator>::next` (iter.rs lines 13-26): the null handle
is the termination sentinel; otherwise yield the current pointer and advance
it with `LLVMGetNextFunction`. -/
def Functions.next (self : Functions) (st : Ctx) :
    Option (Value × Functions) :=
  if self.pointer.value = 0 then none
  else some (self.pointer, ⟨⟨LLVMGetNextFunction st self.pointer.value⟩⟩)

/-- Drain the iterator with explicit fuel (the Rust `for` loop; any fuel of
at least the module's function count drains it fully). -/
def Functions.collect (st : Ctx) : Nat → Functions → List Value
  | 0, _ => []
  | fuel + 1, it =>
    match it.next st with
    | none => []
    | some (v, it2) => v :: Functions.collect st fuel it2

/-- `Module::functions` (module.rs lines 66-74): an iterator starting at
`LLVMGetFirstFunction`. -/
def Module.functions (self : Module) (st : Ctx) : Except String Functions := do
  let m ← optUnwrap self.module
  pure ⟨⟨LLVMGetFirstFunction st m⟩⟩

/-! ## File emission (`module.rs`)

`write_llvm_ir`/`write_bitcode` call `LLVMPrintModuleToFile` /
`LLVMWriteBitcodeToFile` and panic with a fixed message when the backend
reports failure.  The filesystem outcome is an oracle `fs : String → Option
String` giving, per path, `some diagnostic` for an I/O failure or `none`
for success. -/

/-- `Module::write_llvm_ir` (module.rs lines 95-108).  On backend failure
the source panics with the fixed message below; the diagnostic the backend
produced is never read and the path never added. -/
def Module.write_llvm_ir (self : Module) (fs : String → Option String)
    (path : String) : Except String Unit := do
  let _m ← optUnwrap self.module
  match fs path with
  | some _diag => Except.error "failed to write LLVM IR to file"
  | none => pure ()

/-- `Module::write_bitcode` (module.rs lines 111-123). -/
def Module.write_bitcode (self : Module) (fs : String → Option String)
    (path : String) : Except String Unit := do
  let _m ← optUnwrap self.module
  match fs path with
  | some _diag => Except.error "failed to write bitcode to file"
  | none => pure ()

/-! ## Global-context type factories (`types.rs`) and named structs -/

/-- `types::ty_i1`. -/
def ty_i1 : Ty := ⟨LLVMTypeRef.int 1⟩

/-- `types::ty_i8`. -/
def ty_i8 : Ty := ⟨LLVMTypeRef.int 8⟩

/-- `types::ty_i16`. -/
def ty_i16 : Ty := ⟨LLVMTypeRef.int 16⟩

/-- `types::ty_i32`. -/
def ty_i32 : Ty := ⟨LLVMTypeRef.int 32⟩

/-- `types::ty_i64`. -/
def ty_i64 : Ty := ⟨LLVMTypeRef.int 64⟩

/-- `types::ty_i128`. -/
def ty_i128 : Ty := ⟨LLVMTypeRef.int 128⟩

/-- `types::ty_i`: an integer type of any bit width. -/
def ty_i (bits : Nat) : Ty := ⟨LLVMTypeRef.int bits⟩

/-- The integer type factories of `types.rs`, as a family (used to state the
round-trip property for every factory at once). -/
inductive IntFactory : Type
  | i1
  | i8
  | i16
  | i32
  | i64
  | i128
  | iBits (bits : Nat)
  deriving Repr, DecidableEq

/-- The `Ty` a factory returns. -/
def IntFactory.make : IntFactory → Ty
  | IntFactory.i1 => ty_i1
  | IntFactory.i8 => ty_i8
  | IntFactory.i16 => ty_i16
  | IntFactory.i32 => ty_i32
  | IntFactory.i64 => ty_i64
  | IntFactory.i128 => ty_i128
  | IntFactory.iBits bits => ty_i bits

/-- `types::create_named_struct`: `LLVMStructCreateNamed` registers the name
with no body (opaque) and returns its type reference.  (LLVM's uniquification
of an already-taken name is irrelevant to the claims and not modelled; the
theorems use fresh names.) -/
def create_named_struct (st : Ctx) (name : String) : Ty × Ctx :=
  (⟨LLVMTypeRef.named name⟩,
    { st with namedStructs := (name, none) :: st.namedStructs })

/-- `LLVMStructSetBody`: stores the body on the named struct.  A release
build of LLVM performs no opacity check here: a second call simply
overwrites the body. -/
def LLVMStructSetBody (st : Ctx) (t : LLVMTypeRef)
    (elems : List LLVMTypeRef) (packed : Bool) : Ctx :=
  match t with
  | LLVMTypeRef.named name =>
    { st with
        namedStructs := aupdate name (fun _ => some (elems, packed)) st.namedStructs }
  | _ => st

/-- `Type::struct_set_body` (ty.rs lines 40-44): forwards directly to
`LLVMStructSetBody`, with no once-only check of its own. -/
def Ty.struct_set_body (self : Ty) (st : Ctx) (elements : List Ty)
    (packed : Bool) : Ctx :=
  LLVMStructSetBody st self.ty (elements.map Ty.ty) packed

/-- Structural query on a struct type (`LLVMGetStructElementTypes`): the
fields of the current body, in order; `none` while the struct is opaque or
the type is not a named struct. -/
def structFields (st : Ctx) (t : Ty) : Option (List LLVMTypeRef) :=
  match t.ty with
  | LLVMTypeRef.named name =>
    match alookup name st.namedStructs with
    | some (some body) => some body.1
    | _ => none
  | _ => none

/-! ## Backend initialization guard (`target.rs` lines 10-19)

The source keeps `static mut UNINITIALIZED: bool = true` — a plain,
non-atomic boolean — and `initialize()` checks it, clears it and runs the
three `LLVM_InitializeAll*` calls.  `TargetState.uninit` is that flag and
`TargetState.initCount` counts how many times target initialization actually
ran (the backend side effect). -/

/-- The process-wide state behind `target::initialize`. -/
structure TargetState : Type where
  uninit : Bool
  initCount : Nat
  deriving Repr, DecidableEq

/-- Process start: the static is `true`, no initialization has run. -/
def TargetState.fresh : TargetState := ⟨true, 0⟩

/-- `target::initialize`, run to completion with no interleaving (the
sequential semantics of the function). -/
def runInit (s : TargetState) : TargetState :=
  if s.uninit then { uninit := false, initCount := s.initCount + 1 } else s

/-- Program counter of one thread executing `target::initialize` when the
non-atomic read and the write+initialize are separate steps. -/
inductive InitPC : Type
  | start
  | seen (flag : Bool)
  | done
  deriving Repr, DecidableEq

/-- Two threads racing through `target::initialize` on the shared flag. -/
structure RaceState : Type where
  uninit : Bool
  initCount : Nat
  pc1 : InitPC
  pc2 : InitPC
  deriving Repr, DecidableEq

/-- One step of one thread: `start` reads the flag (non-atomically);
`seen true` clears it and runs the initialization; `seen false` returns. -/
def stepThread (flag : Bool) (count : Nat) (pc : InitPC) :
    Bool × Nat × InitPC :=
  match pc with
  | InitPC.start => (flag, count, InitPC.seen flag)
  | InitPC.seen true => (false, count + 1, InitPC.done)
  | InitPC.seen false => (flag, count, InitPC.done)
  | InitPC.done => (flag, count, InitPC.done)

/-- Advance the thread chosen by `tid`. -/
def stepRace (s : RaceState) (tid : Bool) : RaceState :=
  if tid then
    let r := stepThread s.uninit s.initCount s.pc2
    { uninit := r.1, initCount := r.2.1, pc1 := s.pc1, pc2 := r.2.2 }
  else
    let r := stepThread s.uninit s.initCount s.pc1
    { uninit := r.1, initCount := r.2.1, pc1 := r.2.2, pc2 := s.pc2 }

/-- Run a schedule (a list of thread choices). -/
def runSched (s : RaceState) : List Bool → RaceState
  | [] => s
  | t :: rest => runSched (stepRace s t) rest

/-- Two threads both about to make their first call, flag still set. -/
def raceStart : RaceState := ⟨true, 0, InitPC.start, InitPC.start⟩

/-! ## Well-formedness of a context state

Invariants every state reached through the API satisfies: handles are drawn
from the counter (so they are nonzero and bounded by it) and the intrusive
function lists never repeat a handle, across modules as well. -/

/-- Well-formed context state. -/
abbrev Ctx.WF (st : Ctx) : Prop :=
  1 ≤ st.nextHandle ∧
  (∀ e ∈ st.modules, ∀ p ∈ e.2.funcs, p.1 ≠ 0 ∧ p.1 < st.nextHandle) ∧
  (st.modules.map (fun e => e.2.funcs.map Prod.fst)).flatten.Nodup

/-! ## Helper observations -/

/-- Whether a wrapped call returned without panicking. -/
def exceptOk {ε α : Type} : Except ε α → Bool
  | Except.ok _ => true
  | Except.error _ => false

/-- The description of the value an emission returned (`none` on panic or a
dangling handle). -/
def emittedDescr (r : Except String (Value × Ctx)) : Option ValueDescr :=
  match r with
  | Except.ok (v, st) => (alookup v.value st.values).map ValueInfo.descr
  | Except.error _ => none

/-- Head of a handle list, or the null handle. -/
def headOr0 : List Nat → Nat
  | [] => 0
  | a :: _ => a

/-! ## Lemmas about name lookup and the intrusive function list -/

theorem findByName_eq_zero (l : List (Nat × String)) (name : String)
    (h : ∀ p ∈ l, p.2 ≠ name) : findByName l name = 0 := by
  induction l with
  | nil => rfl
  | cons p rest ih =>
    obtain ⟨ph, pn⟩ := p
    have hne : pn ≠ name := h (ph, pn) (List.mem_cons_self _ _)
    simp only [findByName, if_neg hne]
    exact ih fun q hq => h q (List.mem_cons_of_mem _ hq)

theorem nextAfter_of_not_mem (h : Nat) (l : List Nat) (hn : h ∉ l) :
    nextAfter h l = none := by
  induction l with
  | nil => rfl
  | cons a rest ih =>
    have ha : a ≠ h := fun e => hn (e ▸ List.mem_cons_self a rest)
    simp only [nextAfter, if_neg ha]
    exact ih fun hm => hn (List.mem_cons_of_mem _ hm)

theorem nextAfter_append (h : Nat) (pre rest : List Nat) (hp : h ∉ pre) :
    nextAfter h (pre ++ h :: rest) = some (headOr0 rest) := by
  induction pre with
  | nil => cases rest <;> simp [nextAfter, headOr0]
  | cons a pre2 ih =>
    have ha : a ≠ h := fun e => hp (e ▸ List.mem_cons_self a pre2)
    simp only [List.cons_append, nextAfter, if_neg ha]
    exact ih fun hm => hp (List.mem_cons_of_mem _ hm)

theorem nodup_of_mem_join {α : Type} {s : List α} {L : List (List α)}
    (hs : s ∈ L) (hnd : L.flatten.Nodup) : s.Nodup := by
  induction L with
  | nil => cases hs
  | cons t L2 ih =>
    rw [List.flatten_cons] at hnd
    rcases List.mem_cons.mp hs with he | hm
    · exact he ▸ hnd.of_append_left
    · exact ih hm hnd.of_append_right

theorem findNextFunc_eq (h m : Nat) (mo : ModuleObj) (pre rest : List Nat)
    (mods : List (Nat × ModuleObj)) (hmem : (m, mo) ∈ mods)
    (hnd : (mods.map (fun e => e.2.funcs.map Prod.fst)).flatten.Nodup)
    (hdec : mo.funcs.map Prod.fst = pre ++ h :: rest) :
    findNextFunc h mods = headOr0 rest := by
  induction mods with
  | nil => cases hmem
  | cons e mods2 ih =>
    rw [List.map_cons, List.flatten_cons] at hnd
    rcases List.mem_cons.mp hmem with he | hm2
    · have hmoNodup : (mo.funcs.map Prod.fst).Nodup := by
        rw [← he] at hnd
        exact hnd.of_append_left
      have hp : h ∉ pre := by
        intro hhp
        rw [hdec] at hmoNodup
        exact List.disjoint_of_nodup_append hmoNodup hhp
          (List.mem_cons_self _ _)
      rw [← he]
      simp [findNextFunc, hdec, nextAfter_append h pre rest hp]
    · have hhin : h ∈ mo.funcs.map Prod.fst := by
        rw [hdec]
        exact List.mem_append_right _ (List.mem_cons_self _ _)
      have hjoin : h ∈ (mods2.map (fun e => e.2.funcs.map Prod.fst)).flatten :=
        List.mem_flatten.mpr ⟨mo.funcs.map Prod.fst,
          List.mem_map_of_mem _ hm2, hhin⟩
      have hne : h ∉ e.2.funcs.map Prod.fst :=
        fun hin => List.disjoint_of_nodup_append hnd hin hjoin
      simp only [findNextFunc, nextAfter_of_not_mem h _ hne]
      exact ih hm2 hnd.of_append_right

theorem collect_null (st : Ctx) (fuel : Nat) :
    Functions.collect st fuel ⟨⟨0⟩⟩ = [] := by
  cases fuel with
  | zero => rfl
  | succ f => simp [Functions.collect, Functions.next]

theorem collect_decomp (st : Ctx) (m : Nat) (mo : ModuleObj)
    (hwf : Ctx.WF st) (hm : alookup m st.modules = some mo)
    (rest : List Nat) :
    ∀ (pre : List Nat), mo.funcs.map Prod.fst = pre ++ rest →
      ∀ fuel, rest.length ≤ fuel →
        Functions.collect st fuel ⟨⟨headOr0 rest⟩⟩ =
          rest.map (fun h => (⟨h⟩ : Value)) := by
  induction rest with
  | nil => intro pre hdec fuel hf; simp [headOr0, collect_null]
  | cons h rest2 ih =>
    intro pre hdec fuel hf
    cases fuel with
    | zero => simp at hf
    | succ f =>
      have hhin : h ∈ mo.funcs.map Prod.fst := by
        rw [hdec]
        exact List.mem_append_right _ (List.mem_cons_self _ _)
      have hh0 : h ≠ 0 := by
        obtain ⟨p, hp, hph⟩ := List.mem_map.mp hhin
        exact hph ▸ (hwf.2.1 (m, mo) (alookup_mem hm) p hp).1
      have hnext : LLVMGetNextFunction st h = headOr0 rest2 :=
        findNextFunc_eq h m mo pre rest2 st.modules (alookup_mem hm)
          hwf.2.2 hdec
      have hrec := ih (pre ++ [h])
        (by rw [hdec, List.append_assoc]; rfl) f
        (Nat.le_of_succ_le_succ (by simpa using hf))
      simp only [headOr0, Functions.collect, Functions.next,
        LLVMGetNextFunction, if_neg hh0, List.map_cons]
      rw [← LLVMGetNextFunction]
      rw [hnext]
      exact congrArg (List.cons ⟨h⟩) hrec

/-! ## Concrete states used by counterexamples and witnesses -/

/-- Two `i32` constants (handles 2 and 3) and one builder object (handle 1)
positioned at block handle 9. -/
def stC1 : Ctx :=
  { nextHandle := 4
    values :=
      [(2, ⟨LLVMTypeRef.int 32, ValueDescr.constInt (LLVMTypeRef.int 32) 7⟩),
       (3, ⟨LLVMTypeRef.int 32, ValueDescr.constInt (LLVMTypeRef.int 32) 3⟩)]
    builders := [(1, some 9)] }

/-- A builder object (handle 1) whose insertion position was never set. -/
def stNoPos : Ctx := { nextHandle := 2, builders := [(1, none)] }

/-- A fresh context for the named-struct scenario. -/
def st6 : Ctx := {}

/-- One module (handle 1) declaring a single function "f" (handle 2) and a
single global "gv" (handle 3). -/
def stGetFn : Ctx :=
  { nextHandle := 4
    values :=
      [(2, ⟨LLVMTypeRef.int 32, ValueDescr.function "f"⟩),
       (3, ⟨LLVMTypeRef.ptr (LLVMTypeRef.int 32), ValueDescr.global "gv"⟩)]
    modules := [(1, { funcs := [(2, "f")], globals := [(3, "gv")] })] }

/-- Companion invariant to `Ctx.WF` for the global-variable lists: every
declared global's handle is likewise drawn from the counter, hence
nonzero. -/
abbrev Ctx.WFGlobals (st : Ctx) : Prop :=
  ∀ e ∈ st.modules, ∀ p ∈ e.2.globals, p.1 ≠ 0 ∧ p.1 < st.nextHandle

/-- One module (handle 1) declaring functions "f" (handle 2) and "g"
(handle 3), in that order. -/
def stIter : Ctx :=
  { nextHandle := 4
    values :=
      [(2, ⟨LLVMTypeRef.int 32, ValueDescr.function "f"⟩),
       (3, ⟨LLVMTypeRef.int 32, ValueDescr.function "g"⟩)]
    modules := [(1, { funcs := [(2, "f"), (3, "g")] })] }

/-- Sanity check of the backend model: the C API's `LLVMBuildInBoundsGEP`
does set the inbounds marking, so the marking is expressible and its absence
below is meaningful. -/
theorem inboundsGEP_api_marks (st : Ctx) (b ptr : Nat) (indices : List Nat) :
    alookup (LLVMBuildInBoundsGEP st b ptr indices).1
        (LLVMBuildInBoundsGEP st b ptr indices).2.values =
      some ⟨LLVMTypeOf st ptr, ValueDescr.instr (Instr.gep ptr indices true)⟩ := by
  simp [LLVMBuildInBoundsGEP, allocValue, alookup]

/-! ## C1 — `build_int_urem` versus `build_int_srem` -/

/-- C1: the claim says `build_int_urem` emits an unsigned-remainder (urem)
instruction while `build_int_srem` emits a signed-remainder (srem)
instruction and the two are different functions.  The code contradicts this
(and its own doc comment): `build_int_urem`'s body calls `LLVMBuildSRem`,
so the two methods are extensionally equal and `build_int_urem` emits an
srem — never a urem — instruction, evaluated here at concrete i32 operands
7 and 3. -/
theorem urem_is_srem_code_eval :
    (∀ (b : Builder) (st : Ctx) (a c : Value),
      b.build_int_urem st a c = b.build_int_srem st a c) ∧
    emittedDescr ((Builder.mk (some 1)).build_int_urem stC1 ⟨2⟩ ⟨3⟩) =
      some (ValueDescr.instr (Instr.srem 2 3)) ∧
    emittedDescr ((Builder.mk (some 1)).build_int_urem stC1 ⟨2⟩ ⟨3⟩) ≠
      some (ValueDescr.instr (Instr.urem 2 3)) :=
  ⟨fun _ _ _ _ => rfl, by decide, by decide⟩

/-! ## C10 — `build_gep` versus `build_inbounds_gep` -/

/-- C10: `build_gep` and `build_inbounds_gep` are extensionally equal (both
bodies call `LLVMBuildGEP`), and the instruction the "inbounds" variant
emits carries no inbounds marking. -/
theorem gep_eq_inbounds_gep :
    (∀ (b : Builder) (st : Ctx) (ptr : Value) (indices : List Value),
      b.build_gep st ptr indices = b.build_inbounds_gep st ptr indices) ∧
    emittedDescr ((Builder.mk (some 1)).build_inbounds_gep stC1 ⟨2⟩ [⟨3⟩]) =
      some (ValueDescr.instr (Instr.gep 2 [3] false)) :=
  ⟨fun _ _ _ _ => rfl, by decide⟩

/-! ## C3 — `build_phi` on empty and non-empty incoming lists -/

/-- C3: `build_phi` with an empty incoming list panics ("phi node must have
an incoming block list") and returns no handle; with a non-empty list it
returns a phi node typed after the first incoming value that receives all
incoming (value, block) pairs in input order. -/
theorem build_phi_empty_fails_nonempty_builds :
    (∀ (b : Builder) (st : Ctx),
      b.build_phi st [] =
        Except.error "phi node must have an incoming block list") ∧
    (∀ (r : Nat) (st : Ctx) (v0 : Value) (bb0 : BasicBlock)
        (rest : List (Value × BasicBlock)),
      ∃ st2,
        (Builder.mk (some r)).build_phi st ((v0, bb0) :: rest) =
          Except.ok (⟨st.nextHandle⟩, st2) ∧
        alookup st.nextHandle st2.values =
          some ⟨LLVMTypeOf st v0.value,
            ValueDescr.instr (Instr.phi (LLVMTypeOf st v0.value)
              (((v0, bb0) :: rest).map
                (fun p => (p.1.value, p.2.basic_block))))⟩) := by
  constructor
  · intro b st
    rfl
  · intro r st v0 bb0 rest
    refine ⟨_, rfl, ?_⟩
    simp [Builder.build_phi, optUnwrap, LLVMAddIncoming, LLVMBuildPhi,
      allocValue, aupdate_cons_self, alookup_cons_self, List.zip_map']

/-! ## C4 — emission with no insertion position set -/

/-- C4 counterexample: builder object 1 in `stNoPos` has no insertion
position set, yet `build_alloca` through it returns a handle instead of
failing fast — the wrapper checks only that it still holds its backend
reference, never the position. -/
theorem emission_no_position_check_cex :
    alookup 1 stNoPos.builders = some none ∧
    exceptOk ((Builder.mk (some 1)).build_alloca stNoPos ty_i32) = true := by
  decide

/-- C4 amended: every emission method requires only that the wrapper still
holds its `LLVMBuilderRef` (it panics via `Option::unwrap` after
`into_inner`); it performs no insertion-position check, returning a handle
even when no position was ever set.  Shown for the representative emission
methods `build_alloca`, `build_int_add` and `build_ret_void`, over every
state (positioned or not). -/
theorem emission_requires_only_builder_ref (st : Ctx) (r : Nat) (ty : Ty)
    (a c : Value) :
    exceptOk ((Builder.mk (some r)).build_alloca st ty) = true ∧
    exceptOk ((Builder.mk (some r)).build_int_add st a c) = true ∧
    exceptOk ((Builder.mk (some r)).build_ret_void st) = true ∧
    (Builder.mk none).build_alloca st ty =
      Except.error "called Option::unwrap on a None value" ∧
    (Builder.mk none).build_int_add st a c =
      Except.error "called Option::unwrap on a None value" ∧
    (Builder.mk none).build_ret_void st =
      Except.error "called Option::unwrap on a None value" :=
  ⟨rfl, rfl, rfl, rfl, rfl, rfl⟩

/-! ## C5 — error contents of the module writers -/

/-- C5 counterexample: two failures at different paths with different
backend diagnostics produce the same fixed panic message, so the error
carries neither the path nor the backend diagnostic string. -/
theorem write_error_fixed_message_cex :
    Module.write_llvm_ir ⟨some 1⟩ (fun _ => some "disk full") "out.ll" =
      Module.write_llvm_ir ⟨some 1⟩
        (fun _ => some "permission denied") "other.ll" ∧
    Module.write_llvm_ir ⟨some 1⟩ (fun _ => some "disk full") "out.ll" =
      Except.error "failed to write LLVM IR to file" ∧
    Module.write_bitcode ⟨some 1⟩ (fun _ => some "disk full") "out.bc" =
      Except.error "failed to write bitcode to file" :=
  ⟨rfl, rfl, rfl⟩

/-- C5 amended: on a backend I/O failure both writers fail fast by panicking
with a fixed message ("failed to write LLVM IR to file" / "failed to write
bitcode to file") that carries neither the path nor the backend diagnostic,
and they report success exactly when the backend reports success. -/
theorem write_fail_fast (self : Module) (fs : String → Option String)
    (path : String) (m : Nat) (h : self.module = some m) :
    ((fs path).isSome = true →
      self.write_llvm_ir fs path =
        Except.error "failed to write LLVM IR to file" ∧
      self.write_bitcode fs path =
        Except.error "failed to write bitcode to file") ∧
    (fs path = none →
      self.write_llvm_ir fs path = Except.ok () ∧
      self.write_bitcode fs path = Except.ok ()) := by
  constructor
  · intro hs
    obtain ⟨d, hd⟩ := Option.isSome_iff_exists.mp hs
    constructor <;>
      simp [Module.write_llvm_ir, Module.write_bitcode, optUnwrap, h, hd,
        bind, Except.bind]
  · intro hn
    constructor <;>
      simp [Module.write_llvm_ir, Module.write_bitcode, optUnwrap, h, hn,
        bind, Except.bind, pure, Except.pure]

/-- Witness for `write_fail_fast` at a concrete module, oracle and path. -/
theorem write_fail_fast_witness :
    (Module.mk (some 1)).module = some 1 ∧
    (Module.write_llvm_ir ⟨some 1⟩ (fun _ => none) "m.ll" = Except.ok () ∧
      Module.write_bitcode ⟨some 1⟩ (fun _ => none) "m.ll" = Except.ok ()) :=
  ⟨rfl, (write_fail_fast ⟨some 1⟩ (fun _ => none) "m.ll" 1 rfl).2 rfl⟩

/-! ## C6 — `struct_set_body` called twice -/

/-- C6 counterexample: create the named struct "S" opaque, set its body to
`[i32]`, then call `struct_set_body` a second time with `[i64]`: the second
call is not rejected — it silently re-sets the body, and structural queries
afterwards reflect the second body. -/
theorem struct_set_body_second_call_resets_cex :
    structFields
        (Ty.struct_set_body ⟨LLVMTypeRef.named "S"⟩
          (create_named_struct st6 "S").2 [ty_i32] false)
        ⟨LLVMTypeRef.named "S"⟩ = some [LLVMTypeRef.int 32] ∧
    structFields
        (Ty.struct_set_body ⟨LLVMTypeRef.named "S"⟩
          (Ty.struct_set_body ⟨LLVMTypeRef.named "S"⟩
            (create_named_struct st6 "S").2 [ty_i32] false) [ty_i64] false)
        ⟨LLVMTypeRef.named "S"⟩ = some [LLVMTypeRef.int 64] := by
  decide

/-- C6 amended: `struct_set_body` performs no once-only check: every call —
including a second one on the same type — forwards to the backend and
re-sets the body, and after each call structural queries reflect exactly the
fields most recently set, in field order. -/
theorem struct_set_body_reflects_latest (st : Ctx) (name : String)
    (e1 e2 : List Ty) (p1 p2 : Bool)
    (h : (alookup name st.namedStructs).isSome = true) :
    structFields (Ty.struct_set_body ⟨LLVMTypeRef.named name⟩ st e1 p1)
      ⟨LLVMTypeRef.named name⟩ = some (e1.map Ty.ty) ∧
    structFields
      (Ty.struct_set_body ⟨LLVMTypeRef.named name⟩
        (Ty.struct_set_body ⟨LLVMTypeRef.named name⟩ st e1 p1) e2 p2)
      ⟨LLVMTypeRef.named name⟩ = some (e2.map Ty.ty) := by
  obtain ⟨b, hb⟩ := Option.isSome_iff_exists.mp h
  constructor <;>
    simp [Ty.struct_set_body, LLVMStructSetBody, structFields,
      alookup_aupdate_self, hb]

/-- Witness for `struct_set_body_reflects_latest` on a freshly created
struct "S" with bodies `[i32]` and `[i64]`. -/
theorem struct_set_body_reflects_latest_witness :
    (alookup "S" (create_named_struct st6 "S").2.namedStructs).isSome = true ∧
    (structFields
        (Ty.struct_set_body ⟨LLVMTypeRef.named "S"⟩
          (create_named_struct st6 "S").2 [ty_i32] false)
        ⟨LLVMTypeRef.named "S"⟩ = some ([ty_i32].map Ty.ty) ∧
      structFields
        (Ty.struct_set_body ⟨LLVMTypeRef.named "S"⟩
          (Ty.struct_set_body ⟨LLVMTypeRef.named "S"⟩
            (create_named_struct st6 "S").2 [ty_i32] false) [ty_i64] false)
        ⟨LLVMTypeRef.named "S"⟩ = some ([ty_i64].map Ty.ty)) :=
  ⟨by decide,
    struct_set_body_reflects_latest (create_named_struct st6 "S").2 "S"
      [ty_i32] [ty_i64] false false (by decide)⟩

/-! ## C8 — type of a constant round-trips to its factory -/

/-- C8: for every integer type factory `T` of `types.rs` and every operand,
`T().const_int(x).ty()` equals `T()` — the constant's type, read back
through `LLVMTypeOf`, is the factory's type. -/
theorem const_int_ty_round_trip (f : IntFactory) (st : Ctx) (x : Nat) :
    ((f.make.const_int st x).1).ty ((f.make.const_int st x).2) = f.make := by
  simp [Ty.const_int, LLVMConstInt, allocValue, Value.ty, LLVMTypeOf, alookup]

/-! ## C9 — the backend initialization guard -/

/-- C9 counterexample: the guard is a plain non-atomic boolean, so two
threads making their first call can interleave read-then-write: under the
schedule below both observe the flag still set and both run target
initialization — it runs twice, violating the claimed at-most-once
guarantee under concurrent first calls. -/
theorem race_double_init_cex :
    (runSched raceStart [false, true, false, true]).initCount = 2 ∧
    ¬ (runSched raceStart [false, true, false, true]).initCount ≤ 1 := by
  decide

/-- C9 amended: sequentially the guard works — the first `initialize` call
runs target initialization exactly once, clears the flag, and every later
call is a no-op — but the flag is an ordinary non-atomic boolean, so the
at-most-once guarantee does not extend to concurrent first calls. -/
theorem init_guard_sequential (s : TargetState) :
    runInit (runInit s) = runInit s ∧
    (runInit s).uninit = false ∧
    (runInit s).initCount = s.initCount + (if s.uninit then 1 else 0) ∧
    (runInit TargetState.fresh).initCount = 1 := by
  obtain ⟨u, c⟩ := s
  cases u <;> simp [runInit, TargetState.fresh]

/-! ## C2 — looking up an undeclared function name -/

/-- C2: `get_function` (respectively `get_global`) on a name not declared
as a function (respectively global) in the module returns the value
wrapping the null handle — an observable absent value — without panicking,
and in a well-formed state every declared function's and global's handle is
nonzero, so absence is distinguishable from every present handle. -/
theorem get_function_global_absent (st : Ctx) (m : Nat) (mo : ModuleObj)
    (name : String) (hwf : Ctx.WF st) (hwg : Ctx.WFGlobals st)
    (hm : alookup m st.modules = some mo)
    (habsF : ∀ p ∈ mo.funcs, p.2 ≠ name)
    (habsG : ∀ p ∈ mo.globals, p.2 ≠ name) :
    Module.get_function ⟨some m⟩ st name = Except.ok ⟨0⟩ ∧
    Module.get_global ⟨some m⟩ st name = Except.ok ⟨0⟩ ∧
    (∀ p ∈ mo.funcs, p.1 ≠ 0) ∧
    (∀ p ∈ mo.globals, p.1 ≠ 0) := by
  refine ⟨?_, ?_, ?_, ?_⟩
  · simp [Module.get_function, optUnwrap, LLVMGetNamedFunction, hm,
      findByName_eq_zero mo.funcs name habsF]
  · simp [Module.get_global, optUnwrap, LLVMGetNamedGlobal, hm,
      findByName_eq_zero mo.globals name habsG]
  · intro p hp
    exact (hwf.2.1 (m, mo) (alookup_mem hm) p hp).1
  · intro p hp
    exact (hwg (m, mo) (alookup_mem hm) p hp).1

/-- Witness for `get_function_global_absent`: the module of `stGetFn`
declares only function "f" and global "gv"; looking up "g" through either
query yields the null-handle value. -/
theorem get_function_global_absent_witness :
    Ctx.WF stGetFn ∧ Ctx.WFGlobals stGetFn ∧
    (Module.get_function ⟨some 1⟩ stGetFn "g" = Except.ok ⟨0⟩ ∧
      Module.get_global ⟨some 1⟩ stGetFn "g" = Except.ok ⟨0⟩ ∧
      (∀ p ∈ ({ funcs := [(2, "f")], globals := [(3, "gv")] } : ModuleObj).funcs,
        p.1 ≠ 0) ∧
      (∀ p ∈ ({ funcs := [(2, "f")], globals := [(3, "gv")] } : ModuleObj).globals,
        p.1 ≠ 0)) :=
  ⟨by decide, by decide,
    get_function_global_absent stGetFn 1
      { funcs := [(2, "f")], globals := [(3, "gv")] } "g" (by decide)
      (by decide) rfl (by decide) (by decide)⟩

/-! ## C7 — iterating a module's functions -/

/-- C7: `functions()` yields, for a well-formed state, exactly the module's
declared functions in declaration order (the empty sequence for an empty
module) and terminates: any fuel of at least the declaration count drains
the iterator, which stops at the backend's null "no successor" sentinel
(the `pointer.value = 0` test in `Functions.next`), not at a precomputed
length. -/
theorem functions_iterates_declarations (st : Ctx) (m : Nat) (mo : ModuleObj)
    (hwf : Ctx.WF st) (hm : alookup m st.modules = some mo) :
    ∃ it, Module.functions ⟨some m⟩ st = Except.ok it ∧
      ∀ fuel, mo.funcs.length ≤ fuel →
        Functions.collect st fuel it =
          mo.funcs.map (fun p => (⟨p.1⟩ : Value)) := by
  refine ⟨⟨⟨LLVMGetFirstFunction st m⟩⟩, rfl, ?_⟩
  intro fuel hf
  have h1 : LLVMGetFirstFunction st m = headOr0 (mo.funcs.map Prod.fst) := by
    simp only [LLVMGetFirstFunction, hm]
    cases mo.funcs <;> simp [firstHandle, headOr0]
  rw [h1]
  have h2 := collect_decomp st m mo hwf hm (mo.funcs.map Prod.fst) [] rfl
    fuel (by simpa using hf)
  rw [h2, List.map_map]
  rfl

/-- Witness for `functions_iterates_declarations`: in `stIter`, iterating
module 1 yields its two functions, handles 2 then 3. -/
theorem functions_iterates_declarations_witness :
    Ctx.WF stIter ∧
    (∃ it, Module.functions ⟨some 1⟩ stIter = Except.ok it ∧
      ∀ fuel, ({ funcs := [(2, "f"), (3, "g")] } : ModuleObj).funcs.length ≤ fuel →
        Functions.collect stIter fuel it =
          ({ funcs := [(2, "f"), (3, "g")] } : ModuleObj).funcs.map
            (fun p => (⟨p.1⟩ : Value))) :=
  ⟨by decide,
    functions_iterates_declarations stIter 1
      { funcs := [(2, "f"), (3, "g")] } (by decide) rfl⟩

end LlvmWrap
